import Mathlib

/-!
Formal model of the `annorepo_rust_client` library (src/lib.rs): a client for
the AnnoRepo annotation-repository web service.  The HTTP transport is
abstracted as explicit inputs (a response value for `create_search`, a
page-fetch function for the iterator); everything else is translated
function-by-function from the Rust source.  Rust panics (`unwrap`, `expect`)
are modelled by the `Outcome.crash` constructor.
-/

namespace Annorepo

/-- JSON values as handled by serde_json: null, booleans, numbers, strings,
arrays and objects.  Objects are modelled as association lists of key/value
pairs (serde_json's `Map`); the claims only ever exercise objects with
distinct keys. -/
inductive JsonValue where
  | null : JsonValue
  | bool : Bool → JsonValue
  | num : Int → JsonValue
  | str : String → JsonValue
  | arr : List JsonValue → JsonValue
  | obj : List (String × JsonValue) → JsonValue

/-- True exactly on JSON arrays (the `Array(..)` pattern of serde_json). -/
def JsonValue.isArr : JsonValue → Bool
  | .arr _ => true
  | _ => false

/-- Opaque transport-layer error (`reqwest::Error`): network failure, an HTTP
error surfaced by the transport, or a JSON-decoding failure. -/
structure ReqError where
  msg : String
  deriving DecidableEq

/-- The library's error enum (`Error` in src/lib.rs): a missing `Location`
header, a malformed annotation page carrying the offending JSON, or a wrapped
transport error. -/
inductive Error where
  | UrlNotFound : Error
  | MalformedAnnotationPage : JsonValue → Error
  | ReqError : ReqError → Error

/-- Result of running a piece of Rust code that may panic: either the computed
value, or a crash with the panic message (`unwrap` / `expect`). -/
inductive Outcome (α : Type) where
  | ok : α → Outcome α
  | crash : String → Outcome α

/-- The client (`AnnoRepoClient` in src/lib.rs).  The `reqwest::Client`
transport handle is external state with no observable data and is not
modelled; the two string fields are kept exactly. -/
structure AnnoRepoClient where
  base_url : String
  container : String
  deriving DecidableEq

/-- `AnnoRepoClient::new`: stores both strings as provided and returns `Ok`.
The `Result` wrapper is kept because the Rust signature has it, although the
error branch is never taken. -/
def AnnoRepoClient.new (base_url container : String) : Except Error AnnoRepoClient :=
  Except.ok { base_url := base_url, container := container }

/-- `AnnoRepoClient::resolve_service`: pure string formatting of
`{base}/services/{container}/{endpoint}`. -/
def AnnoRepoClient.resolve_service (self : AnnoRepoClient) (endpoint : String) : String :=
  let base := self.base_url
  let container := self.container
  s!"{base}/services/{container}/{endpoint}"

/-- `AnnoRepoClient::resolve_service_param`: pure string formatting of
`{base}/services/{container}/{endpoint}/{param}`. -/
def AnnoRepoClient.resolve_service_param (self : AnnoRepoClient)
    (endpoint param : String) : String :=
  let base := self.base_url
  let container := self.container
  s!"{base}/services/{container}/{endpoint}/{param}"

/-- The search handle (`SearchInfo` in src/lib.rs): a borrowed client
reference plus the server-assigned id and location. -/
structure SearchInfo where
  client : AnnoRepoClient
  search_id : String
  location : String
  deriving DecidableEq

/-- `SearchInfo::new`: plain record construction wrapped in `Ok`; the error
branch is never taken. -/
def SearchInfo.new (client : AnnoRepoClient) (search_id location : String) :
    Except Error SearchInfo :=
  Except.ok { client := client, search_id := search_id, location := location }

/-- `SearchInfo::search_id` accessor. -/
def SearchInfo.get_search_id (self : SearchInfo) : String := self.search_id

/-- `SearchInfo::location` accessor. -/
def SearchInfo.get_location (self : SearchInfo) : String := self.location

/-- Visible-ASCII test used by `http::HeaderValue::to_str`: a byte decodes iff
it is in 32..=126 or is a horizontal tab. -/
def isVisibleAscii (b : Nat) : Bool :=
  (decide (32 ≤ b) && decide (b < 127)) || decide (b = 9)

/-- `HeaderValue::to_str`: succeeds exactly when every byte is visible ASCII,
yielding the decoded string; otherwise the Rust call returns an error (which
`create_search` then `expect`s). -/
def headerToStr (bytes : List Nat) : Option String :=
  if bytes.all isVisibleAscii then some (String.mk (bytes.map Char.ofNat)) else none

/-- Byte representation of an ASCII string, for building concrete header
values. -/
def strBytes (s : String) : List Nat := s.data.map Char.toNat

/-- Core of Rust's `str::rsplit_once`: split a character list at the LAST
occurrence of `c`, returning the parts before and after it, or `none` when
`c` does not occur. -/
def rsplitOnceList (c : Char) : List Char → Option (List Char × List Char)
  | [] => none
  | a :: rest =>
    match rsplitOnceList c rest with
    | some (pre, post) => some (a :: pre, post)
    | none => if a = c then some ([], rest) else none

/-- `str::rsplit_once` on strings. -/
def rsplitOnce (s : String) (c : Char) : Option (String × String) :=
  match rsplitOnceList c s.data with
  | none => none
  | some (pre, post) => some (String.mk pre, String.mk post)

/-- `AnnoRepoClient::create_search`, with the HTTP exchange abstracted: the
input is the POST's outcome — a transport error, or a response whose
`Location` header is absent (`none`) or present as raw bytes.  Mirrors the
source: transport errors are mapped to `Error::ReqError`; an absent header
gives `Error::UrlNotFound`; a present header is decoded with
`to_str().expect("Header must be valid unicode")` and split with
`rsplit_once('/').unwrap()` — both panic on malformed values. -/
def AnnoRepoClient.create_search (self : AnnoRepoClient)
    (resp : Except ReqError (Option (List Nat))) : Outcome (Except Error SearchInfo) :=
  match resp with
  | .error e => .ok (.error (.ReqError e))
  | .ok none => .ok (.error .UrlNotFound)
  | .ok (some headerBytes) =>
    match headerToStr headerBytes with
    | none => .crash "Header must be valid unicode"
    | some location =>
      match rsplitOnce location '/' with
      | none => .crash "called unwrap on a None value"
      | some (_, search_id) =>
        match SearchInfo.new self search_id location with
        | .ok info => .ok (.ok info)
        | .error e => .ok (.error e)

/-- serde_json object lookup (`Map::get`) on the association-list model. -/
def lookupField (key : String) : List (String × JsonValue) → Option JsonValue
  | [] => none
  | (k, v) :: rest => if k = key then some v else lookupField key rest

/-- Effect of `map.entry(key).or_insert(Null)` followed by `.take()` on the
field list of a JSON object: returns the previous value of `key` (Null when
absent) together with the updated field list, in which `key` is now bound to
Null (inserted when it was absent). -/
def takeKey (key : String) : List (String × JsonValue) → JsonValue × List (String × JsonValue)
  | [] => (.null, [(key, .null)])
  | (k, v) :: rest =>
    if k = key then (v, (k, .null) :: rest)
    else
      let r := takeKey key rest
      (r.1, (k, v) :: r.2)

/-- The field list after `page["items"].take()`: the binding of `key` is
replaced by Null (appended when absent). -/
def setKeyNull (key : String) : List (String × JsonValue) → List (String × JsonValue)
  | [] => [(key, .null)]
  | (k, v) :: rest => if k = key then (k, .null) :: rest else (k, v) :: setKeyNull key rest

/-- serde_json's `value[key].take()` on a mutable `Value`
(`Index::index_or_insert` then `mem::take`): a Null value first becomes an
empty object; an object takes the entry as in `takeKey`; any other value
panics ("cannot access key ... in JSON ..."). -/
def jsonIndexTake (key : String) : JsonValue → Outcome (JsonValue × JsonValue)
  | .null => .ok (.null, .obj [(key, .null)])
  | .obj fields =>
    let r := takeKey key fields
    .ok (r.1, .obj r.2)
  | _ => .crash "cannot access key in JSON value"

/-- serde_json's `value[key]` on an immutable `Value`: Null for a missing key
or a non-object value, never a panic. -/
def jsonIndex (key : String) : JsonValue → JsonValue
  | .obj fields => (lookupField key fields).getD .null
  | _ => .null

/-- The pagination iterator (`AnnoIter` in src/lib.rs): borrowed client, the
search URL, the current page number, the (unused) item index, and the
buffered items of the most recently fetched page (`VecDeque`, front at the
head of the list). -/
structure AnnoIter where
  client : AnnoRepoClient
  url : String
  cur_page : Nat
  cur_anno : Nat
  annotations : List JsonValue

/-- `AnnoIter::new`, with the page request abstracted as `fetch` (page number
to response body).  Mirrors the source: the fetch result is `.unwrap()`ed —
a transport error panics; then `annotation_page["items"].take()` is matched:
an array initialises the buffer, anything else yields
`Error::MalformedAnnotationPage` carrying the page AFTER the take (its
`items` member now Null). -/
def AnnoIter.new (client : AnnoRepoClient) (container_name search_id : String)
    (fetch : Nat → Except ReqError JsonValue) (start_page : Nat) :
    Outcome (Except Error AnnoIter) :=
  let base := client.base_url
  let search_url := s!"{base}/services/{container_name}/search/{search_id}"
  match fetch start_page with
  | .error _ => .crash "called unwrap on an Err value"
  | .ok annotation_page =>
    match jsonIndexTake "items" annotation_page with
    | .crash m => .crash m
    | .ok (item, annotation_page2) =>
      match item with
      | .arr annos =>
        .ok (.ok { client := client, url := search_url, cur_page := start_page,
                   cur_anno := 0, annotations := annos })
      | _ => .ok (.error (.MalformedAnnotationPage annotation_page2))

/-- `Iterator::next` for `AnnoIter`: pop the front of the buffered queue and
return it, or `None` when the queue is empty.  The source performs no page
fetch here (its `while let ... pop_front` returns on the first popped item). -/
def AnnoIter.next (it : AnnoIter) : Option JsonValue × AnnoIter :=
  match it.annotations with
  | [] => (none, it)
  | a :: rest => (some a, { it with annotations := rest })

/-- Drive `next` up to `fuel` times, collecting the yielded items in order —
the sequence a caller consuming the iterator observes. -/
def AnnoIter.take (fuel : Nat) (it : AnnoIter) : List JsonValue :=
  match fuel with
  | 0 => []
  | Nat.succ f =>
    match it.next with
    | (some a, it2) => a :: AnnoIter.take f it2
    | (none, _) => []

/-- `AnnoRepoClient::foreach_search_result_annotation`, with the page request
abstracted as `fetch`.  Mirrors the source: the fetch result is `.unwrap()`ed
(a transport error panics); then the immutable index `page["items"]` is
matched — an array applies the callback to each item in order (modelled as
the returned list of visited items), anything else yields
`Error::MalformedAnnotationPage` carrying the page unmodified. -/
def AnnoRepoClient.foreach_search_result_annotation (self : AnnoRepoClient)
    (container_name search_id : String)
    (fetch : Nat → Except ReqError JsonValue) (start_page : Option Nat) :
    Outcome (Except Error (List JsonValue)) :=
  match fetch (start_page.getD 0) with
  | .error _ => .crash "called unwrap on an Err value"
  | .ok annotation_page =>
    match jsonIndex "items" annotation_page with
    | .arr annos => .ok (.ok annos)
    | _ => .ok (.error (.MalformedAnnotationPage annotation_page))

/-- Modelled from the spec: the "final path segment" of a location string is
its maximal suffix containing no '/' — the part after the last slash.  Used
to state C3 independently of the code's `rsplit_once`. -/
def finalPathSegment (s : String) : String :=
  String.mk ((s.data.reverse.takeWhile (fun ch => ch != '/')).reverse)

/-- Concrete three-page server for the pagination scenario of the spec: page
0 holds items A and B, page 1 holds item C, every later page is empty. -/
def pagesABC : Nat → Except ReqError JsonValue := fun n =>
  if n = 0 then .ok (.obj [("items", .arr [.str "A", .str "B"])])
  else if n = 1 then .ok (.obj [("items", .arr [.str "C"])])
  else .ok (.obj [("items", .arr [])])

/-- C2: for every response to `create_search` whose headers contain no
`Location` header, `create_search` returns the missing-location error
`Error::UrlNotFound` — it does not panic and does not return a handle. -/
theorem c2_missing_location_is_url_not_found (self : AnnoRepoClient) :
    self.create_search (.ok none) = .ok (.error .UrlNotFound) := rfl

/-- C7: the resolved service URL is exactly
`base ++ "/services/" ++ container ++ "/" ++ endpoint`, and with a parameter
`... ++ "/" ++ param`; in particular the two concrete examples of the spec. -/
theorem c7_resolve_service_urls (b c e p : String) :
    AnnoRepoClient.resolve_service ⟨b, c⟩ e = b ++ "/services/" ++ c ++ "/" ++ e ∧
    AnnoRepoClient.resolve_service_param ⟨b, c⟩ e p =
      b ++ "/services/" ++ c ++ "/" ++ e ++ "/" ++ p ∧
    AnnoRepoClient.resolve_service ⟨"https://h", "C"⟩ "fields" =
      "https://h/services/C/fields" ∧
    AnnoRepoClient.resolve_service_param ⟨"https://h", "C"⟩ "distinct-values" "X" =
      "https://h/services/C/distinct-values/X" := by
  refine ⟨?_, ?_, rfl, rfl⟩ <;>
    simp [AnnoRepoClient.resolve_service, AnnoRepoClient.resolve_service_param, toString]

/-- C8: `AnnoRepoClient::new` stores `base_url` and `container` exactly as
provided, with no trimming or normalization (second conjunct: inputs with
surrounding whitespace are kept verbatim). -/
theorem c8_client_stores_inputs_verbatim (b c : String) :
    AnnoRepoClient.new b c = .ok { base_url := b, container := c } ∧
    AnnoRepoClient.new "  https://h/ " "\tC " =
      .ok { base_url := "  https://h/ ", container := "\tC " } :=
  ⟨rfl, rfl⟩

/-- C10: although their signatures return `Result`, `AnnoRepoClient::new` and
`SearchInfo::new` return `Ok` for every input — the error branch is never
taken. -/
theorem c10_constructors_always_ok (b c s l : String) (client : AnnoRepoClient) :
    (∃ cl, AnnoRepoClient.new b c = Except.ok cl) ∧
    (∃ si, SearchInfo.new client s l = Except.ok si) :=
  ⟨⟨_, rfl⟩, ⟨_, rfl⟩⟩

/-- C5 (code bug): a transport error during the page fetch of `AnnoIter::new`
or of `foreach_search_result_annotation` makes the code panic (the fetch
result is `.unwrap()`ed), instead of propagating as a transport-error result
as the claim states.  Evaluation of the model at a failing fetch. -/
theorem c5_transport_error_panics :
    AnnoIter.new ⟨"https://h", "C"⟩ "C" "s5"
        (fun _ => .error ⟨"connection refused"⟩) 0 =
      .crash "called unwrap on an Err value" ∧
    AnnoRepoClient.foreach_search_result_annotation ⟨"https://h", "C"⟩ "C" "s5"
        (fun _ => .error ⟨"connection refused"⟩) none =
      .crash "called unwrap on an Err value" :=
  ⟨rfl, rfl⟩

/-- C1 (code bug): against the spec's three-page scenario (page 0 = [A, B],
page 1 = [C], page 2 = []), successive `next()` calls yield A, B and then
end-of-sequence: the third call returns `none` instead of fetching page 1 and
yielding C, because `next` never fetches a further page. -/
theorem c1_iterator_never_fetches_past_first_page :
    ∃ it1 it2 it3 : AnnoIter,
      AnnoIter.new ⟨"https://h", "C"⟩ "C" "s1" pagesABC 0 = .ok (.ok it1) ∧
      it1.next = (some (.str "A"), it2) ∧
      it2.next = (some (.str "B"), it3) ∧
      it3.next = (none, it3) :=
  ⟨⟨⟨"https://h", "C"⟩, "https://h/services/C/search/s1", 0, 0, [.str "A", .str "B"]⟩,
   ⟨⟨"https://h", "C"⟩, "https://h/services/C/search/s1", 0, 0, [.str "B"]⟩,
   ⟨⟨"https://h", "C"⟩, "https://h/services/C/search/s1", 0, 0, []⟩,
   rfl, rfl, rfl, rfl⟩

/-- C9 (code bug): draining the iterator built on the three-page scenario
emits only the start page's items [A, B] in FIFO order — not the
concatenation [A, B, C] of all pages, since `next` never crosses a page
boundary. -/
theorem c9_emitted_order_is_first_page_only :
    (∃ it : AnnoIter,
       AnnoIter.new ⟨"https://h", "C"⟩ "C" "s9" pagesABC 0 = .ok (.ok it) ∧
       AnnoIter.take 10 it = [.str "A", .str "B"]) ∧
    [JsonValue.str "A", .str "B"] ≠ [.str "A", .str "B", .str "C"] := by
  constructor
  · exact ⟨⟨⟨"https://h", "C"⟩, "https://h/services/C/search/s9", 0, 0,
            [.str "A", .str "B"]⟩, rfl, rfl⟩
  · simp

/-- C6 counterexample: a `Location` value with no '/' (here "nosegment")
makes `create_search` panic (`rsplit_once('/').unwrap()` on `None`), refuting
the claim that no panic is reachable on the malformed-location path. -/
theorem c6_counterexample_no_slash_panics :
    AnnoRepoClient.create_search ⟨"https://h", "C"⟩
        (.ok (some (strBytes "nosegment"))) =
      .crash "called unwrap on a None value" := rfl

/-- C4 counterexample: for the page `{"items": "x"}` (items present but not
an array), construction fails with the malformed-page error, but the carried
payload is `{"items": null}` — the original value of `items` was destroyed by
`take()` — so the error does not carry the offending JSON unmodified. -/
theorem c4_counterexample_payload_mutated :
    AnnoIter.new ⟨"https://h", "C"⟩ "C" "s4c"
        (fun _ => .ok (.obj [("items", .str "x")])) 0 =
      .ok (.error (.MalformedAnnotationPage (.obj [("items", JsonValue.null)]))) ∧
    JsonValue.obj [("items", JsonValue.null)] ≠ JsonValue.obj [("items", JsonValue.str "x")] := by
  refine ⟨rfl, ?_⟩
  simp

/-- When `rsplitOnceList` finds no split, the character does not occur in the
list. -/
theorem rsplitOnceList_eq_none (c : Char) :
    ∀ l : List Char, rsplitOnceList c l = none → c ∉ l := by
  intro l
  induction l with
  | nil => intro _; simp
  | cons a rest ih =>
    intro h
    unfold rsplitOnceList at h
    cases hr : rsplitOnceList c rest with
    | some pq => rw [hr] at h; exact absurd h (by simp)
    | none =>
      rw [hr] at h
      by_cases hac : a = c
      · rw [if_pos hac] at h; exact absurd h (by simp)
      · intro hm
        rcases List.mem_cons.mp hm with h1 | h2
        · exact hac h1.symm
        · exact ih hr h2

/-- A successful `rsplitOnceList` decomposes the list around the LAST
occurrence of the character: the part after it is free of the character. -/
theorem rsplitOnceList_eq_some (c : Char) :
    ∀ l pre post : List Char, rsplitOnceList c l = some (pre, post) →
      l = pre ++ c :: post ∧ c ∉ post := by
  intro l
  induction l with
  | nil => intro pre post h; exact absurd h (by simp [rsplitOnceList])
  | cons a rest ih =>
    intro pre post h
    unfold rsplitOnceList at h
    cases hr : rsplitOnceList c rest with
    | some pq =>
      obtain ⟨p, q⟩ := pq
      rw [hr] at h
      simp only [Option.some.injEq, Prod.mk.injEq] at h
      obtain ⟨h1, h2⟩ := h
      obtain ⟨hdec, hnot⟩ := ih p q hr
      subst h1; subst h2
      exact ⟨by rw [hdec]; simp, hnot⟩
    | none =>
      rw [hr] at h
      by_cases hac : a = c
      · rw [if_pos hac] at h
        simp only [Option.some.injEq, Prod.mk.injEq] at h
        obtain ⟨h1, h2⟩ := h
        subst h1; subst h2
        exact ⟨by rw [hac]; simp, rsplitOnceList_eq_none c rest hr⟩
      · rw [if_neg hac] at h; exact absurd h (by simp)

/-- `takeWhile` over a list that starts with an all-true block followed by a
false element returns exactly the block. -/
theorem takeWhile_true_block {α : Type} (p : α → Bool) (y : α) :
    ∀ xs ys : List α, (∀ x ∈ xs, p x = true) → p y = false →
      List.takeWhile p (xs ++ y :: ys) = xs := by
  intro xs
  induction xs with
  | nil => intro ys _ hy; simp [List.takeWhile_cons, hy]
  | cons x xs ih =>
    intro ys hall hy
    have hx : p x = true := hall x (List.mem_cons_self x xs)
    simp [List.takeWhile_cons, hx,
      ih ys (fun z hz => hall z (List.mem_cons_of_mem x hz)) hy]

/-- The maximal slash-free suffix of `pre ++ '/' :: post` is `post`, provided
`post` itself contains no slash. -/
theorem suffix_after_last_slash (pre post : List Char) (hpost : '/' ∉ post) :
    ((pre ++ '/' :: post).reverse.takeWhile (fun ch => ch != '/')).reverse = post := by
  have h1 : (pre ++ '/' :: post).reverse = post.reverse ++ '/' :: pre.reverse := by
    simp [List.reverse_append]
  rw [h1, takeWhile_true_block (fun ch => ch != '/') '/' post.reverse pre.reverse
        ?hall ?hy, List.reverse_reverse]
  case hall =>
    intro x hx
    rw [List.mem_reverse] at hx
    simp only [bne_iff_ne, ne_eq]
    intro he
    exact hpost (he ▸ hx)
  case hy => simp

/-- C3: a `create_search` response carrying a decodable `Location` header
whose value contains a '/' yields a handle whose `location` is exactly the
header value and whose `search_id` is the final path segment of that value. -/
theorem c3_search_id_is_final_path_segment (self : AnnoRepoClient)
    (hv : List Nat) (loc : String)
    (hdec : headerToStr hv = some loc) (hslash : '/' ∈ loc.data) :
    self.create_search (.ok (some hv)) =
      .ok (.ok { client := self, search_id := finalPathSegment loc, location := loc }) := by
  cases hr : rsplitOnceList '/' loc.data with
  | none => exact absurd hslash (rsplitOnceList_eq_none '/' loc.data hr)
  | some pq =>
    obtain ⟨pre, post⟩ := pq
    obtain ⟨hdecomp, hnot⟩ := rsplitOnceList_eq_some '/' loc.data pre post hr
    have hseg : finalPathSegment loc = String.mk post := by
      unfold finalPathSegment
      rw [hdecomp, suffix_after_last_slash pre post hnot]
    simp only [AnnoRepoClient.create_search, hdec, rsplitOnce, hr, SearchInfo.new, hseg]

/-- Witness for C3 at the spec's concrete example: header value
`https://h/services/C/search/abc123` yields the handle with `search_id`
"abc123" and that exact location. -/
theorem c3_witness_abc123 :
    AnnoRepoClient.create_search ⟨"https://h", "C"⟩
        (.ok (some (strBytes "https://h/services/C/search/abc123"))) =
      .ok (.ok { client := ⟨"https://h", "C"⟩, search_id := "abc123",
                 location := "https://h/services/C/search/abc123" }) := by
  have h := c3_search_id_is_final_path_segment ⟨"https://h", "C"⟩
      (strBytes "https://h/services/C/search/abc123")
      "https://h/services/C/search/abc123" (by decide) (by decide)
  have e : finalPathSegment "https://h/services/C/search/abc123" = "abc123" := by decide
  rw [e] at h
  exact h

/-- Auxiliary: `takeKey` is lookup-with-Null-default paired with the
`setKeyNull` update. -/
theorem takeKey_eq (key : String) :
    ∀ fields : List (String × JsonValue),
      takeKey key fields =
        ((lookupField key fields).getD JsonValue.null, setKeyNull key fields) := by
  intro fields
  induction fields with
  | nil => rfl
  | cons kv rest ih =>
    obtain ⟨k, v⟩ := kv
    by_cases hk : k = key <;> simp [takeKey, lookupField, setKeyNull, hk, ih]

/-- C4 (amended): for every JSON-object page body whose `items` field is
missing or not an array, `AnnoIter::new` fails with the malformed-page error,
but the carried payload is the body with its `items` member replaced by Null
(inserted as Null when absent) — not the original unmodified body. -/
theorem c4_malformed_page_payload_items_nulled (client : AnnoRepoClient)
    (container_name search_id : String) (fields : List (String × JsonValue))
    (h : ((lookupField "items" fields).getD JsonValue.null).isArr = false) :
    AnnoIter.new client container_name search_id (fun _ => .ok (.obj fields)) 0 =
      .ok (.error (.MalformedAnnotationPage (.obj (setKeyNull "items" fields)))) := by
  simp only [AnnoIter.new, jsonIndexTake, takeKey_eq]
  cases hi : (lookupField "items" fields).getD JsonValue.null with
  | arr a => rw [hi] at h; exact absurd h (by simp [JsonValue.isArr])
  | null => rfl
  | bool b => rfl
  | num n => rfl
  | str s => rfl
  | obj o => rfl

/-- Witness for C4 (amended): the page `{"x": 1}` has no `items` field;
construction fails with the malformed-page error carrying
`{"x": 1, "items": null}`. -/
theorem c4_witness_missing_items :
    ((lookupField "items" [("x", JsonValue.num 1)]).getD JsonValue.null).isArr = false ∧
    AnnoIter.new ⟨"https://h", "C"⟩ "C" "s4w"
        (fun _ => .ok (.obj [("x", JsonValue.num 1)])) 0 =
      .ok (.error (.MalformedAnnotationPage
        (.obj (setKeyNull "items" [("x", JsonValue.num 1)])))) :=
  ⟨rfl, c4_malformed_page_payload_items_nulled ⟨"https://h", "C"⟩ "C" "s4w"
    [("x", JsonValue.num 1)] rfl⟩

/-- C6 (amended): a malformed `Location` value — bytes that do not decode as
visible ASCII, or a decoded string containing no '/' — makes `create_search`
panic (`expect` / `unwrap`) rather than return an explicit error; only the
absent-header case is an explicit error. -/
theorem c6_malformed_location_panics (self : AnnoRepoClient) (hv : List Nat)
    (h : headerToStr hv = none ∨ ∃ loc, headerToStr hv = some loc ∧ '/' ∉ loc.data) :
    ∃ msg, self.create_search (.ok (some hv)) = .crash msg := by
  rcases h with h | ⟨loc, h1, h2⟩
  · refine ⟨"Header must be valid unicode", ?_⟩
    simp only [AnnoRepoClient.create_search, h]
  · refine ⟨"called unwrap on a None value", ?_⟩
    have hr : rsplitOnceList '/' loc.data = none := by
      cases hr2 : rsplitOnceList '/' loc.data with
      | none => rfl
      | some pq =>
        obtain ⟨pre, post⟩ := pq
        obtain ⟨hdecomp, _⟩ := rsplitOnceList_eq_some '/' loc.data pre post hr2
        exact absurd (show '/' ∈ loc.data by rw [hdecomp]; simp) h2
    simp only [AnnoRepoClient.create_search, h1, rsplitOnce, hr]

/-- Witness for C6 (amended): a header holding the single byte 0 does not
decode as visible ASCII, and `create_search` panics on it. -/
theorem c6_witness_nonascii_header :
    ∃ msg, AnnoRepoClient.create_search ⟨"https://h", "C"⟩
        (.ok (some [0])) = .crash msg :=
  c6_malformed_location_panics ⟨"https://h", "C"⟩ [0] (Or.inl (by decide))

end Annorepo
